import Mathlib

/-!
Verification development for the NDI-Multicam repository
(src/ndi_receiver.py, src/ndi_transmitter.py, src/local_saver.py).

The Python code is shallowly embedded: frames are explicit pixel grids,
the OpenCV drawing calls are modelled as executable pixel transformations,
stateful methods become explicit state passing, and aliasing questions
(in-place mutation of numpy buffers) are modelled with an explicit buffer
heap where needed.
-/

/-- A pixel in BGR order; uint8 channels are modelled as Nat. -/
abbrev Pix := Nat × Nat × Nat

/-- A video frame: a row-major grid of pixels, as a numpy array of shape
(height, width, 3) is. -/
abbrev Frame := List (List Pix)

/-- Height of a frame, as numpy frame.shape[0]. -/
def Frame.height (f : Frame) : Nat := f.length

/-- Width of a frame, as numpy frame.shape[1] (rows are uniform in any
frame the program builds). -/
def Frame.width (f : Frame) : Nat := (f.headD []).length

instance : DecidableEq Pix := inferInstance

instance : DecidableEq Frame := inferInstance

instance : DecidableEq (Option Frame) := inferInstance

instance : DecidableEq (String × Option Frame) := inferInstance

instance : DecidableEq (List (String × Option Frame)) := inferInstance

/-- Models cv2.rectangle(frame, (0, 0), (w-1, h-1), (0, 0, 255), 20):
draws a red border of thickness 20 in place on the frame; the pixels in
the border band become red. The band geometry is an executable
abstraction of the OpenCV stroke; no claim depends on its exact extent,
only on whether the operation touches the buffer. -/
def cvRectangleBorder (w h : Nat) (f : Frame) : Frame :=
  f.mapIdx fun y row => row.mapIdx fun x p =>
    if y < 10 ∨ h ≤ y + 10 ∨ x < 10 ∨ w ≤ x + 10 then (0, 0, 255) else p

/-- Models cv2.rectangle(overlay, (0, 0), (w, 100), (0, 0, 180), -1):
a filled dark-red rectangle across the top of the frame. -/
def cvFilledRect (w : Nat) (f : Frame) : Frame :=
  f.mapIdx fun y row => row.mapIdx fun x p =>
    if y ≤ 100 ∧ x ≤ w then (0, 0, 180) else p

/-- Pixel blend for cv2.addWeighted(a, 0.7, b, 0.3, 0), with rounding;
uint8 saturation cannot trigger since 0.7 + 0.3 = 1. -/
def blendPix (p q : Pix) : Pix :=
  ((7 * p.1 + 3 * q.1 + 5) / 10,
   (7 * p.2.1 + 3 * q.2.1 + 5) / 10,
   (7 * p.2.2 + 3 * q.2.2 + 5) / 10)

/-- Models cv2.addWeighted(f1, 0.7, f2, 0.3, 0): pixel-wise blend of two
frames of equal shape. -/
def cvAddWeighted (f1 f2 : Frame) : Frame :=
  List.zipWith (fun r1 r2 => List.zipWith blendPix r1 r2) f1 f2

/-- Models cv2.resize(frame, (dw, dh)) by nearest-neighbour sampling; the
exact interpolation kernel is external and no claim depends on it. -/
def cvResize (dw dh : Nat) (f : Frame) : Frame :=
  (List.range dh).map fun y => (List.range dw).map fun x =>
    (f.getD (y * f.length / dh) []).getD (x * (f.headD []).length / dw) (0, 0, 0)

/-- Models cv2.circle(grid, (40, 40), 20, (0, 0, 255), -1): a filled red
disc on the grid canvas. -/
def cvCircle (canvas : Frame) : Frame :=
  canvas.mapIdx fun y row => row.mapIdx fun x p =>
    if (if 40 ≤ x then x - 40 else 40 - x) ^ 2
        + (if 40 ≤ y then y - 40 else 40 - y) ^ 2 ≤ 400
    then (0, 0, 255) else p

/-- Models cv2.putText on the grid canvas. Glyph rasterization lives in
the external library and no claim depends on the exact pixels it touches,
so it is modelled as leaving the canvas unchanged. -/
def cvPutText (canvas : Frame) : Frame := canvas

/-- Models np.zeros((h, w, 3), dtype=np.uint8). -/
def blackCanvas (h w : Nat) : Frame :=
  List.replicate h (List.replicate w ((0, 0, 0) : Pix))

/-- Models numpy slice assignment
grid[y0 : y0 + tile.height, x0 : x0 + tile.width] = tile. -/
def placeTile (canvas : Frame) (y0 x0 : Nat) (tile : Frame) : Frame :=
  canvas.mapIdx fun y rowC =>
    if y0 ≤ y ∧ y < y0 + tile.length then
      let tRow := tile.getD (y - y0) []
      rowC.mapIdx fun x p =>
        if x0 ≤ x ∧ x < x0 + tRow.length then tRow.getD (x - x0) p else p
    else rowC

namespace MultiCameraRecorder

/-- The grid-layout lookup of MultiCameraRecorder.create_grid_display
(src/ndi_receiver.py lines 177-185), as a function of num_cams:
returns (rows, cols). -/
def gridLayout (num_cams : Nat) : Nat × Nat :=
  if num_cams == 1 then (1, 1)
  else if num_cams == 2 then (1, 2)
  else if num_cams ≤ 4 then (2, 2)
  else (2, 3)

end MultiCameraRecorder

namespace MultiCameraRecorder

/-- The tiling loop of create_grid_display (src/ndi_receiver.py lines
201-229). The input list mirrors enumerate(frames.items()) starting at
index idx. A None frame is skipped (continue); once row = idx / cols
reaches rows the loop breaks, leaving the remaining entries untouched.
When recording, cv2.rectangle draws the red border in place on the
caller-supplied buffer (using the first-frame dimensions w, h); the
addWeighted blend rebinds the local variable only, so the caller buffer
keeps exactly the border mutation. Returns the canvas together with the
caller buffers as they stand after the loop. -/
def gridLoop (recording : Bool) (w h dw dh rows cols : Nat) :
    List (String × Option Frame) → Nat → Frame → Frame × List (String × Option Frame)
  | [], _, canvas => (canvas, [])
  | (name, none) :: rest, idx, canvas =>
    let res := gridLoop recording w h dw dh rows cols rest (idx + 1) canvas
    (res.1, (name, none) :: res.2)
  | (name, some f) :: rest, idx, canvas =>
    let row := idx / cols
    let col := idx % cols
    if rows ≤ row then
      (canvas, (name, some f) :: rest)
    else
      let fB := if recording then cvRectangleBorder w h f else f
      let fL := if recording then cvAddWeighted (cvFilledRect w fB) fB else fB
      let resized := cvResize dw dh fL
      let canvas2 := placeTile canvas (row * dh) (col * dw) resized
      let res := gridLoop recording w h dw dh rows cols rest (idx + 1) canvas2
      (res.1, (name, some fB) :: res.2)

/-- MultiCameraRecorder.create_grid_display (src/ndi_receiver.py lines
171-237). The frames dict is embedded as an association list in
iteration order, with None for an absent value (the Python dict built by
run never holds None, but the function itself checks for it). Returns
the displayed grid (None for the early returns) paired with the state of
the caller-supplied frame buffers after the call, to make the in-place
border mutation observable. -/
def create_grid_display (recording : Bool) (frames : List (String × Option Frame)) :
    Option Frame × List (String × Option Frame) :=
  match frames with
  | [] => (none, frames)
  | (n0, first) :: rest =>
    let rc := gridLayout frames.length
    match first with
    | none => (none, (n0, none) :: rest)
    | some f0 =>
      let h := Frame.height f0
      let w := Frame.width f0
      let dw := w / 2
      let dh := h / 2
      let grid0 := blackCanvas (dh * rc.1) (dw * rc.2)
      let res := gridLoop recording w h dw dh rc.1 rc.2 ((n0, some f0) :: rest) 0 grid0
      let grid1 := if recording then cvPutText (cvCircle res.1) else res.1
      (some grid1, res.2)

/-- Grid capacity rows*cols for a given frame count. -/
def gridCapacity (num_cams : Nat) : Nat :=
  (gridLayout num_cams).1 * (gridLayout num_cams).2

/-- The effect of the recording branch of the tiling loop on the caller
buffers, starting at position idx: every present frame at a position
below the grid capacity gets the red border drawn in place (with the
first-frame dimensions w, h); everything at or beyond the capacity is
left untouched. -/
def borderEffectFrom (w h cap : Nat) : Nat → List (String × Option Frame) → List (String × Option Frame)
  | _, [] => []
  | idx, p :: rest =>
    (if idx < cap then (p.1, p.2.map (cvRectangleBorder w h)) else p) ::
      borderEffectFrom w h cap (idx + 1) rest

end MultiCameraRecorder

namespace MultiCameraRecorder

/-- MultiCameraRecorder.start_recording (src/ndi_receiver.py lines
141-159), restricted to the writers mapping it builds. The receivers
dict is embedded as the association list of (name, current value of
get_latest_frame) in iteration order; writers is the list of names with
an open cv2.VideoWriter, in insertion order. For every receiver whose
get_latest_frame is not None a writer is opened and added; sources with
no frame yet are skipped. (The directory creation, the fourcc and the
recording flag carry no claim content.) -/
def start_recording (snaps : List (String × Option Frame)) (writers : List String) :
    List String :=
  writers ++ snaps.filterMap (fun p => p.2.map (fun _ => p.1))

/-- The frame-collection half of one iteration of MultiCameraRecorder.run
(src/ndi_receiver.py lines 251-262): for each receiver, poll
get_latest_frame; a None result is skipped; an available frame is put in
the frames dict and, if recording and the name is already a key of
writers, written to that writer at this moment (cv2.VideoWriter.write
encodes the pixel data synchronously, so the written data is the value
the buffer holds at the call). Returns (frames dict entries, frames
written to sinks, in order). -/
def collectFrames (recording : Bool) (writers : List String) :
    List (String × Option Frame) → List (String × Frame) × List (String × Frame)
  | [] => ([], [])
  | (name, none) :: rest => collectFrames recording writers rest
  | (name, some f) :: rest =>
    let res := collectFrames recording writers rest
    ((name, f) :: res.1,
     (if recording && writers.contains name then [(name, f)] else []) ++ res.2)

/-- The result of one iteration of the run loop: the frames written to
the file sinks this iteration, the displayed grid, and the state of the
frame buffers after create_grid_display ran on them. -/
structure IterResult where
  sink : List (String × Frame)
  grid : Option Frame
  framesAfter : List (String × Option Frame)
  deriving Repr, DecidableEq

/-- One iteration of the body of MultiCameraRecorder.run
(src/ndi_receiver.py lines 251-268), up to the display call: collect the
latest frames (writing each available frame to its sink when recording
and the name is in writers), then build the grid display from the
collected frames. The keyboard branch is driven by the user and handled
by the claims about start_recording directly. -/
def runIteration (recording : Bool) (writers : List String)
    (snaps : List (String × Option Frame)) : IterResult :=
  let col := collectFrames recording writers snaps
  let disp := create_grid_display recording (col.1.map fun p => (p.1, some p.2))
  { sink := col.2, grid := disp.1, framesAfter := disp.2 }

end MultiCameraRecorder

/-- An OSC message argument as python-osc delivers it to a handler; the
model keeps the two shapes the claims need (integers and strings),
content is otherwise unconstrained. -/
inductive OSCArg where
  | int (n : Int)
  | str (s : String)
  deriving Repr, DecidableEq

/-- Python str() of one OSC argument. -/
def pyStr : OSCArg → String
  | .int n => toString n
  | .str s => s

/-- Python repr() of one OSC argument (str of a tuple uses repr of the
elements; the quote character is written by code point to keep the
source plain). -/
def pyRepr : OSCArg → String
  | .int n => toString n
  | .str s => String.singleton (Char.ofNat 39) ++ s ++ String.singleton (Char.ofNat 39)

/-- Python str() of the tuple args[0:5], as local_saver.py builds it. -/
def pyStrTuple (args : List OSCArg) : String :=
  match args with
  | [a] => "(" ++ pyRepr a ++ ",)"
  | _ => "(" ++ String.intercalate ", " (args.map pyRepr) ++ ")"

/-- The initial sentinel value of latest_timecode in both
TimecodeReceiver classes (src/ndi_transmitter.py line 13,
src/local_saver.py line 12). -/
def initialTimecode : String := "00:00:00:00:0"

namespace NdiTransmitter

/-- TimecodeReceiver.timecode_handler of src/ndi_transmitter.py lines
18-22, as a transformer of the latest_timecode register: with at least
one argument the register becomes str(args[0]); with no arguments the
body is skipped and the register is unchanged. The address is ignored by
the body. -/
def timecode_handler (address : String) (args : List OSCArg) (latest : String) : String :=
  match args with
  | [] => latest
  | a :: _ =>
    let _ := address
    pyStr a

end NdiTransmitter

namespace LocalSaver

/-- TimecodeReceiver.timecode_handler of src/local_saver.py lines 17-21:
with at least one argument the register becomes str(args[0:5]); with no
arguments it is unchanged. -/
def timecode_handler (address : String) (args : List OSCArg) (latest : String) : String :=
  match args with
  | [] => latest
  | _ :: _ =>
    let _ := address
    pyStrTuple (args.take 5)

end LocalSaver

namespace NdiTransmitter

/-- An event of the TimecodeReceiver register: a handler invocation with
the arguments python-osc decoded, or a get_timecode call. The mutex
around both accessors makes every access atomic, so a history of the
register is a sequence of these events. -/
inductive TCEvent where
  | handle (address : String) (args : List OSCArg)
  | get
  deriving Repr, DecidableEq

/-- Replay a sequence of register events from a given register value:
final register value, plus the value each get_timecode call returned, in
order. get_timecode (src/ndi_transmitter.py lines 24-27) returns the
register unchanged; a handler event applies timecode_handler. -/
def runEvents : List TCEvent → String → String × List String
  | [], st => (st, [])
  | .handle a args :: rest, st => runEvents rest (timecode_handler a args st)
  | .get :: rest, st =>
    let res := runEvents rest st
    (res.1, st :: res.2)

/-- The values stored by the handler invocations of an event sequence:
one entry per handler event that carried at least one argument. -/
def storedValues : List TCEvent → List String
  | [] => []
  | .handle _ [] :: rest => storedValues rest
  | .handle _ (a :: _) :: rest => pyStr a :: storedValues rest
  | .get :: rest => storedValues rest

/-- The state of a TimecodeReceiver object relevant to stop()
(src/ndi_transmitter.py lines 53-57 and src/local_saver.py lines 50-54,
whose bodies are identical): the running flag, whether the server
attribute has been created by start(), whether the serve_forever loop is
still active, whether the UDP socket is still bound, and whether the
receive thread has been joined. -/
structure TCState where
  running : Bool
  serverExists : Bool
  serveLoopActive : Bool
  socketBound : Bool
  threadJoined : Bool
  deriving Repr, DecidableEq

/-- TimecodeReceiver.stop(): sets running to False and, if the server
attribute exists, calls self.server.shutdown(), which stops the
serve_forever loop before returning. No call closes the socket
(server_close is never called) and no call joins the thread, so those
components are untouched. -/
def stop (s : TCState) : TCState :=
  { s with
    running := false
    serveLoopActive := if s.serverExists then false else s.serveLoopActive }

end NdiTransmitter

namespace NDIReceiver

/-- The external NDI library as NDIReceiver.connect observes it
(src/ndi_receiver.py lines 19-70): whether ndi.initialize,
ndi.find_create_v2 and ndi.recv_create_v3 succeed, and the source list
ndi.find_get_current_sources returns at the k-th poll. -/
structure NDIEnv where
  initOk : Bool
  findCreateOk : Bool
  recvCreateOk : Bool
  sourcesAt : Nat → List String

/-- The retry loop of NDIReceiver.connect (src/ndi_receiver.py lines
31-40): up to fuel polls starting at poll index i, reassign sources from
the finder each time and break as soon as the wanted name appears;
sources keeps the last polled list when the name never appears. -/
def pollLoop (sourcesAt : Nat → List String) (name : String) :
    Nat → Nat → List String → List String
  | _, 0, sources => sources
  | i, fuel + 1, _ =>
    let s := sourcesAt i
    if s.contains name then s else pollLoop sourcesAt name (i + 1) fuel s

/-- NDIReceiver.connect (src/ndi_receiver.py lines 19-70): False when
ndi.initialize or ndi.find_create_v2 fails; then 20 polls for the named
source, False when it is absent from the final list; then False when
ndi.recv_create_v3 fails; True after recv_connect otherwise. -/
def connect (env : NDIEnv) (source_name : String) : Bool :=
  if !env.initOk then false
  else if !env.findCreateOk then false
  else
    let sources := pollLoop env.sourcesAt source_name 0 20 []
    if sources.contains source_name then
      if env.recvCreateOk then true else false
    else false

/-- NDIReceiver.start (src/ndi_receiver.py lines 93-102): returns False
when connect fails, otherwise spawns the daemon receive thread (always
succeeds) and returns True. -/
def start (env : NDIEnv) (source_name : String) : Bool :=
  connect env source_name

end NDIReceiver

namespace MultiCameraRecorder

/-- MultiCameraRecorder.connect_sources (src/ndi_receiver.py lines
122-139): for each requested name in order, create an NDIReceiver and
start it; on success the receiver is stored in the registry under its
name, on failure the name is only logged. Returns the registry (as the
list of connected names in order) and the Boolean result: False exactly
when the registry came out empty. -/
def connect_sources (env : NDIReceiver.NDIEnv) (source_names : List String) :
    List String × Bool :=
  let receivers := source_names.filter (fun name => NDIReceiver.start env name)
  (receivers, !receivers.isEmpty)

end MultiCameraRecorder

/-- A heap of numpy frame buffers; a buffer id is an index into the
list. np.copy and .copy() allocate a fresh buffer at the end. -/
structure FrameHeap where
  bufs : List Frame
  deriving Repr, DecidableEq

/-- Read a buffer (out-of-range ids read as an empty frame). -/
def FrameHeap.readBuf (hp : FrameHeap) (i : Nat) : Frame :=
  hp.bufs.getD i []

/-- Mutate a buffer in place, as writing into a numpy array does. -/
def FrameHeap.writeBuf (hp : FrameHeap) (i : Nat) (f : Frame) : FrameHeap :=
  ⟨hp.bufs.set i f⟩

namespace NDIReceiver

/-- The per-receiver state the frame register needs: latest_frame is
None until the receive loop stores a frame, afterwards the id of the
buffer the register aliases. -/
structure RecvState where
  latest_frame : Option Nat
  deriving Repr, DecidableEq

/-- NDIReceiver.get_latest_frame (src/ndi_receiver.py lines 88-91):
under the frame lock, return None when no frame has been stored yet,
otherwise allocate a fresh buffer holding a copy of the register
contents and return its id. -/
def get_latest_frame (st : RecvState) (hp : FrameHeap) : Option Nat × FrameHeap :=
  match st.latest_frame with
  | none => (none, hp)
  | some b => (some hp.bufs.length, ⟨hp.bufs ++ [hp.readBuf b]⟩)

end NDIReceiver

/-- A concrete 2x2 frame used by the concrete-input theorems. -/
def demoFrame : Frame := [[(9, 9, 9), (9, 9, 9)], [(9, 9, 9), (9, 9, 9)]]

/-- A frames mapping with seven available frames, exceeding the 2x3 grid
capacity of six. -/
def sevenFrames : List (String × Option Frame) :=
  [("CAM_0", some demoFrame), ("CAM_1", some demoFrame), ("CAM_2", some demoFrame),
   ("CAM_3", some demoFrame), ("CAM_4", some demoFrame), ("CAM_5", some demoFrame),
   ("CAM_6", some demoFrame)]

/-- A concrete TimecodeReceiver state right after start(): running, the
server exists, the serve loop is active, the socket is bound, the thread
has not been joined. -/
def demoTCState : NdiTransmitter.TCState :=
  { running := true, serverExists := true, serveLoopActive := true,
    socketBound := true, threadJoined := false }

-- All definitions end here; the theorems follow.

namespace MultiCameraRecorder

theorem gridLayout_cols_pos (n : Nat) : 0 < (gridLayout n).2 := by
  unfold gridLayout
  split
  · decide
  split
  · decide
  split
  · decide
  · decide

theorem gridLayout_five_le {n : Nat} (hn : 5 ≤ n) : gridLayout n = (2, 3) := by
  unfold gridLayout
  have h1 : (n == 1) = false := by
    simp only [beq_eq_false_iff_ne, ne_eq]; omega
  have h2 : (n == 2) = false := by
    simp only [beq_eq_false_iff_ne, ne_eq]; omega
  have h4 : ¬ (n ≤ 4) := by omega
  simp [h1, h2, h4]

theorem gridLoop_snd_false (w h dw dh rows cols : Nat) :
    ∀ (fs : List (String × Option Frame)) (idx : Nat) (canvas : Frame),
      (gridLoop false w h dw dh rows cols fs idx canvas).2 = fs
  | [], _, _ => rfl
  | (name, none) :: rest, idx, canvas => by
    simp only [gridLoop]
    rw [gridLoop_snd_false w h dw dh rows cols rest (idx + 1) canvas]
  | (name, some f) :: rest, idx, canvas => by
    simp only [gridLoop, Bool.false_eq_true, if_false]
    split
    · rfl
    · simp only [List.cons.injEq, and_true, true_and]
      rw [gridLoop_snd_false w h dw dh rows cols rest (idx + 1) _]

theorem gridLoop_fst_past (b : Bool) (w h dw dh rows cols : Nat) (hcols : 0 < cols) :
    ∀ (fs : List (String × Option Frame)) (idx : Nat) (canvas : Frame),
      rows * cols ≤ idx →
      (gridLoop b w h dw dh rows cols fs idx canvas).1 = canvas
  | [], _, _, _ => rfl
  | (name, none) :: rest, idx, canvas, hidx => by
    simp only [gridLoop]
    exact gridLoop_fst_past b w h dw dh rows cols hcols rest (idx + 1) canvas
      (Nat.le_trans hidx (Nat.le_succ idx))
  | (name, some f) :: rest, idx, canvas, hidx => by
    simp only [gridLoop]
    rw [if_pos ((Nat.le_div_iff_mul_le hcols).mpr hidx)]

theorem borderEffectFrom_past (w h cap : Nat) :
    ∀ (idx : Nat) (fs : List (String × Option Frame)), cap ≤ idx →
      borderEffectFrom w h cap idx fs = fs
  | _, [], _ => rfl
  | idx, p :: rest, hc => by
    simp only [borderEffectFrom]
    rw [if_neg (by omega), borderEffectFrom_past w h cap (idx + 1) rest (by omega)]

theorem gridLoop_snd_true (w h dw dh rows cols : Nat) (hcols : 0 < cols) :
    ∀ (fs : List (String × Option Frame)) (idx : Nat) (canvas : Frame),
      (gridLoop true w h dw dh rows cols fs idx canvas).2 =
        borderEffectFrom w h (rows * cols) idx fs
  | [], _, _ => rfl
  | (name, none) :: rest, idx, canvas => by
    simp only [gridLoop, borderEffectFrom, Option.map_none]
    rw [gridLoop_snd_true w h dw dh rows cols hcols rest (idx + 1) canvas]
    split <;> rfl
  | (name, some f) :: rest, idx, canvas => by
    by_cases hc : rows * cols ≤ idx
    · simp only [gridLoop]
      rw [if_pos ((Nat.le_div_iff_mul_le hcols).mpr hc)]
      simp only [borderEffectFrom]
      rw [if_neg (by omega), borderEffectFrom_past w h _ (idx + 1) rest (by omega)]
    · have hrow : ¬ rows ≤ idx / cols := fun hr => hc ((Nat.le_div_iff_mul_le hcols).mp hr)
      simp only [gridLoop, borderEffectFrom]
      rw [if_neg hrow, if_pos (by omega : idx < rows * cols)]
      simp only [if_true, Option.map_some, List.cons.injEq, true_and]
      exact ⟨rfl, gridLoop_snd_true w h dw dh rows cols hcols rest (idx + 1) _⟩

theorem gridLoop_fst_take (b : Bool) (w h dw dh rows cols : Nat) (hcols : 0 < cols) :
    ∀ (fs : List (String × Option Frame)) (idx : Nat) (canvas : Frame),
      (gridLoop b w h dw dh rows cols fs idx canvas).1 =
      (gridLoop b w h dw dh rows cols (fs.take (rows * cols - idx)) idx canvas).1
  | [], idx, canvas => by rw [List.take_nil]
  | (name, none) :: rest, idx, canvas => by
    by_cases hc : rows * cols ≤ idx
    · rw [Nat.sub_eq_zero_of_le hc, List.take_zero]
      simp only [gridLoop]
      exact gridLoop_fst_past b w h dw dh rows cols hcols rest (idx + 1) canvas (by omega)
    · have h1 : rows * cols - idx = (rows * cols - (idx + 1)) + 1 := by omega
      rw [h1, List.take_succ_cons]
      simp only [gridLoop]
      exact gridLoop_fst_take b w h dw dh rows cols hcols rest (idx + 1) canvas
  | (name, some f) :: rest, idx, canvas => by
    by_cases hc : rows * cols ≤ idx
    · rw [Nat.sub_eq_zero_of_le hc, List.take_zero]
      simp only [gridLoop]
      rw [if_pos ((Nat.le_div_iff_mul_le hcols).mpr hc)]
    · have hrow : ¬ rows ≤ idx / cols := fun hr => hc ((Nat.le_div_iff_mul_le hcols).mp hr)
      have h1 : rows * cols - idx = (rows * cols - (idx + 1)) + 1 := by omega
      rw [h1, List.take_succ_cons]
      simp only [gridLoop]
      rw [if_neg hrow, if_neg hrow]
      exact gridLoop_fst_take b w h dw dh rows cols hcols rest (idx + 1) _

end MultiCameraRecorder

/-- Claim C1: the grid layout chosen by create_grid_display is a pure
function of the number of available frames: count 1 gives rows=1, cols=1;
count 2 gives rows=1, cols=2; counts 3 and 4 give rows=2, cols=2; every
count of 5 or more gives rows=2, cols=3. -/
theorem grid_layout_pure_lookup :
    MultiCameraRecorder.gridLayout 1 = (1, 1) ∧
    MultiCameraRecorder.gridLayout 2 = (1, 2) ∧
    MultiCameraRecorder.gridLayout 3 = (2, 2) ∧
    MultiCameraRecorder.gridLayout 4 = (2, 2) ∧
    ∀ n : Nat, 5 ≤ n → MultiCameraRecorder.gridLayout n = (2, 3) := by
  refine ⟨rfl, rfl, rfl, rfl, ?_⟩
  intro n hn
  unfold MultiCameraRecorder.gridLayout
  have h1 : (n == 1) = false := by
    simp only [beq_eq_false_iff_ne, ne_eq]; omega
  have h2 : (n == 2) = false := by
    simp only [beq_eq_false_iff_ne, ne_eq]; omega
  have h4 : ¬ (n ≤ 4) := by omega
  simp [h1, h2, h4]

/-- Witness for C1: the universally quantified part evaluated at 7. -/
theorem grid_layout_pure_lookup_witness :
    MultiCameraRecorder.gridLayout 7 = (2, 3) :=
  grid_layout_pure_lookup.2.2.2.2 7 (by decide)

namespace MultiCameraRecorder

theorem gridLoop_fst_take_cons (b : Bool) (w h dw dh : Nat)
    (p : String × Option Frame) (rest : List (String × Option Frame)) (canvas : Frame) :
    (gridLoop b w h dw dh 2 3 (p :: rest) 0 canvas).1 =
    (gridLoop b w h dw dh 2 3 (p :: rest.take 5) 0 canvas).1 := by
  rw [gridLoop_fst_take b w h dw dh 2 3 (by decide) (p :: rest) 0 canvas,
    gridLoop_fst_take b w h dw dh 2 3 (by decide) (p :: rest.take 5) 0 canvas]
  have h1 : (2 * 3 - 0) = 6 := by decide
  rw [h1]
  rw [List.take_succ_cons, List.take_succ_cons, List.take_take]
  simp

end MultiCameraRecorder

/-- Claim C8: when the frames mapping holds more than rows*cols = 6
frames, create_grid_display tiles only the first six entries in
iteration order; the entries at index six and beyond are silently
dropped and do not affect the returned canvas (the call stays total, no
error path exists). Formally, the displayed grid equals the grid built
from the first six entries alone. -/
theorem create_grid_display_drops_excess (recording : Bool)
    (frames : List (String × Option Frame)) (hlen : 6 < frames.length) :
    (MultiCameraRecorder.create_grid_display recording frames).1 =
      (MultiCameraRecorder.create_grid_display recording (frames.take 6)).1 := by
  open MultiCameraRecorder in
  match frames, hlen with
  | (n0, first) :: rest, hlen =>
    have hrest : 6 ≤ rest.length := by
      simp only [List.length_cons] at hlen; omega
    have htake5 : (rest.take 5).length = 5 := by
      rw [List.length_take]; omega
    cases first with
    | none =>
      simp [create_grid_display, List.take_succ_cons]
    | some f0 =>
      have hlay1 : gridLayout ((n0, some f0) :: rest).length = (2, 3) := by
        apply gridLayout_five_le
        simp only [List.length_cons]; omega
      have hlay2 : gridLayout ((n0, some f0) :: rest.take 5).length = (2, 3) := by
        apply gridLayout_five_le
        simp only [List.length_cons, htake5]
        omega
      simp only [create_grid_display, List.take_succ_cons, hlay1, hlay2]
      rw [gridLoop_fst_take_cons]

/-- Witness for C8 at the concrete seven-frame mapping. -/
theorem create_grid_display_drops_excess_witness :
    6 < sevenFrames.length ∧
      (MultiCameraRecorder.create_grid_display true sevenFrames).1 =
        (MultiCameraRecorder.create_grid_display true (sevenFrames.take 6)).1 :=
  ⟨by decide, create_grid_display_drops_excess true sevenFrames (by decide)⟩

/-- Counterexample to claim C10 as stated: in the seven-frame mapping
with recording active, every frame is present, yet the caller buffer of
the seventh entry (index 6, beyond the 2x3 grid capacity) is returned
unchanged, while the first entry really is mutated, so the border is
not drawn onto every non-absent caller buffer. -/
theorem create_grid_display_seventh_frame_unmutated :
    (MultiCameraRecorder.create_grid_display true sevenFrames).2.getD 6 ("", none) =
        ("CAM_6", some demoFrame) ∧
      (MultiCameraRecorder.create_grid_display true sevenFrames).2.getD 0 ("", none) ≠
        ("CAM_0", some demoFrame) := by
  decide

/-- Claim C10 amended: create_grid_display mutates the caller-supplied
frame buffers in place exactly as follows. When recording is inactive,
or the mapping is empty, or its first frame is absent (early return),
every buffer is left unchanged. When recording is active and the first
frame is present, the red border rectangle is drawn in place (with the
first-frame dimensions) onto each present frame whose index is below the
grid capacity rows*cols; frames at or beyond the capacity are left
unchanged by the loop break. -/
theorem create_grid_display_border_in_place (recording : Bool)
    (frames : List (String × Option Frame)) :
    (MultiCameraRecorder.create_grid_display recording frames).2 =
      if recording then
        (match frames with
         | [] => frames
         | (_, none) :: _ => frames
         | (_, some f0) :: _ =>
             MultiCameraRecorder.borderEffectFrom (Frame.width f0) (Frame.height f0)
               (MultiCameraRecorder.gridCapacity frames.length) 0 frames)
      else frames := by
  open MultiCameraRecorder in
  cases frames with
  | nil => cases recording <;> simp [create_grid_display]
  | cons p rest =>
    obtain ⟨n0, first⟩ := p
    cases first with
    | none => cases recording <;> simp [create_grid_display]
    | some f0 =>
      cases recording with
      | false =>
        simp only [Bool.false_eq_true, if_false]
        simp only [create_grid_display]
        exact gridLoop_snd_false _ _ _ _ _ _ _ 0 _
      | true =>
        simp only [if_true]
        simp only [create_grid_display]
        rw [gridLoop_snd_true _ _ _ _ _ _ (gridLayout_cols_pos _) _ 0 _]
        rfl

namespace MultiCameraRecorder

theorem collectFrames_snd (recording : Bool) (writers : List String) :
    ∀ snaps : List (String × Option Frame),
      (collectFrames recording writers snaps).2 =
        snaps.filterMap (fun p => p.2.bind fun f =>
          if recording && writers.contains p.1 then some (p.1, f) else none)
  | [] => rfl
  | (name, none) :: rest => by
    simp only [collectFrames, List.filterMap_cons, Option.bind]
    exact collectFrames_snd recording writers rest
  | (name, some f) :: rest => by
    simp only [collectFrames, List.filterMap_cons, Option.some_bind]
    rw [collectFrames_snd recording writers rest]
    by_cases hc : (recording && writers.contains name) = true
    · rw [if_pos hc, if_pos hc]; rfl
    · rw [if_neg hc, if_neg hc]; rfl

theorem runIteration_sink_raw (recording : Bool) (writers : List String)
    (snaps : List (String × Option Frame)) :
    (runIteration recording writers snaps).sink =
      snaps.filterMap (fun p => p.2.bind fun f =>
        if recording && writers.contains p.1 then some (p.1, f) else none) := by
  show (collectFrames recording writers snaps).2 = _
  rw [collectFrames_snd recording writers snaps]

end MultiCameraRecorder

/-- Claim C3: in an iteration of the run loop with recording active, each
available frame is written to its file sink at collection time, before
create_grid_display draws any border or indicator, so the sink receives
exactly the raw values that get_latest_frame returned: the sink log is
the filterMap of the raw snapshots with no cv drawing operation applied
to any written frame. -/
theorem run_writes_raw_frames (writers : List String)
    (snaps : List (String × Option Frame)) :
    (MultiCameraRecorder.runIteration true writers snaps).sink =
      snaps.filterMap (fun p => p.2.bind fun f =>
        if writers.contains p.1 then some (p.1, f) else none) := by
  rw [MultiCameraRecorder.runIteration_sink_raw true writers snaps]
  simp only [Bool.true_and]

/-- Claim C2: starting recording when every receiver still reports no
frame leaves the writers mapping empty (and raises nothing: the model is
total); with that empty mapping, no later iteration of the run loop ever
writes a frame or creates a sink, because the loop writes only for names
already present in writers, as the last conjunct states in general. -/
theorem start_recording_empty_session
    (snaps₀ : List (String × Option Frame))
    (h : ∀ p ∈ snaps₀, p.2 = none) :
    MultiCameraRecorder.start_recording snaps₀ [] = [] ∧
    (∀ snaps, (MultiCameraRecorder.runIteration true
        (MultiCameraRecorder.start_recording snaps₀ []) snaps).sink = []) ∧
    (∀ (writers : List String) (snaps : List (String × Option Frame))
        (e : String × Frame),
      e ∈ (MultiCameraRecorder.runIteration true writers snaps).sink →
        e.1 ∈ writers) := by
  have hmain : MultiCameraRecorder.start_recording snaps₀ [] = [] := by
    simp only [MultiCameraRecorder.start_recording, List.nil_append]
    rw [List.filterMap_eq_nil]
    intro p hp
    rw [h p hp]
    rfl
  have honly : ∀ (writers : List String) (snaps : List (String × Option Frame))
      (e : String × Frame),
      e ∈ (MultiCameraRecorder.runIteration true writers snaps).sink →
        e.1 ∈ writers := by
    intro writers snaps e he
    rw [MultiCameraRecorder.runIteration_sink_raw] at he
    simp only [Bool.true_and] at he
    rw [List.mem_filterMap] at he
    obtain ⟨p, _, hpe⟩ := he
    rcases p with ⟨pn, pf⟩
    cases pf with
    | none => exact absurd hpe (by simp)
    | some f =>
      simp only [Option.some_bind] at hpe
      by_cases hc : writers.contains pn = true
      · rw [if_pos hc] at hpe
        cases hpe
        simpa using hc
      · rw [if_neg hc] at hpe
        exact absurd hpe (by simp)
  refine ⟨hmain, ?_, honly⟩
  intro snaps
  rw [hmain, MultiCameraRecorder.runIteration_sink_raw]
  rw [List.filterMap_eq_nil]
  intro p _
  cases hp : p.2 with
  | none => rfl
  | some f => simp [List.contains_nil]

/-- Witness for C2 at a concrete one-source snapshot with no frame. -/
theorem start_recording_empty_session_witness :
    MultiCameraRecorder.start_recording [("CAM_A", (none : Option Frame))] [] = [] ∧
      (MultiCameraRecorder.runIteration true
        (MultiCameraRecorder.start_recording [("CAM_A", (none : Option Frame))] [])
        [("CAM_A", some demoFrame)]).sink = [] := by
  have h := start_recording_empty_session [("CAM_A", (none : Option Frame))]
    (by intro p hp; simp only [List.mem_singleton] at hp; rw [hp])
  exact ⟨h.1, h.2.1 [("CAM_A", some demoFrame)]⟩

/-- Counterexample to claim C4 as stated: starting from the state right
after start() (socket bound, thread alive and unjoined), stop() returns
with the socket still bound and the thread still not joined, so stop()
does not both unbind the listening socket and join the receive thread. -/
theorem stop_counterexample :
    ¬ (((NdiTransmitter.stop demoTCState).socketBound = false) ∧
        (NdiTransmitter.stop demoTCState).threadJoined = true) := by
  decide

/-- Claim C4 amended: TimecodeReceiver.stop() sets running to False and,
when the server attribute exists, calls server.shutdown(), which stops
the serve_forever loop; it neither closes (unbinds) the listening socket
nor joins the receive thread, both of which keep their previous state. -/
theorem stop_amended (s : NdiTransmitter.TCState) :
    (NdiTransmitter.stop s).running = false ∧
    (NdiTransmitter.stop s).serverExists = s.serverExists ∧
    (NdiTransmitter.stop s).serveLoopActive =
      (if s.serverExists then false else s.serveLoopActive) ∧
    (NdiTransmitter.stop s).socketBound = s.socketBound ∧
    (NdiTransmitter.stop s).threadJoined = s.threadJoined :=
  ⟨rfl, rfl, rfl, rfl, rfl⟩

namespace NdiTransmitter

theorem runEvents_append : ∀ (xs ys : List TCEvent) (st : String),
    runEvents (xs ++ ys) st =
      ((runEvents ys (runEvents xs st).1).1,
        (runEvents xs st).2 ++ (runEvents ys (runEvents xs st).1).2)
  | [], ys, st => by simp [runEvents]
  | .handle a args :: rest, ys, st => by
    simp only [List.cons_append, runEvents, List.append_eq]
    rw [runEvents_append rest ys (timecode_handler a args st)]
  | .get :: rest, ys, st => by
    simp only [List.cons_append, runEvents, List.append_eq]
    rw [runEvents_append rest ys st]

theorem runEvents_fst_mem : ∀ (evs : List TCEvent) (st : String),
    (runEvents evs st).1 = st ∨ (runEvents evs st).1 ∈ storedValues evs
  | [], st => Or.inl rfl
  | .handle a [] :: rest, st => by
    simp only [runEvents, timecode_handler, storedValues]
    exact runEvents_fst_mem rest st
  | .handle a (x :: xs) :: rest, st => by
    simp only [runEvents, timecode_handler, storedValues]
    rcases runEvents_fst_mem rest (pyStr x) with h | h
    · right; rw [h]; exact List.mem_cons_self _ _
    · right; exact List.mem_cons_of_mem _ h
  | .get :: rest, st => by
    simp only [runEvents, storedValues]
    exact runEvents_fst_mem rest st

end NdiTransmitter

/-- Claim C5: for every sequence of handler invocations interleaved with
get_timecode calls (the mutex makes each access atomic, so a history is
such a sequence), the value returned by any get_timecode call - placed
after the prefix evs1 of the history - is either the initial sentinel
"00:00:00:00:0" or one of the values stored by the handler invocations of
that prefix; no torn or unstored string can be returned. -/
theorem get_timecode_no_thin_air (evs1 evs2 : List NdiTransmitter.TCEvent) :
    ∃ pre post,
      (NdiTransmitter.runEvents (evs1 ++ NdiTransmitter.TCEvent.get :: evs2)
          initialTimecode).2 =
        pre ++ (NdiTransmitter.runEvents evs1 initialTimecode).1 :: post ∧
      ((NdiTransmitter.runEvents evs1 initialTimecode).1 = initialTimecode ∨
        (NdiTransmitter.runEvents evs1 initialTimecode).1 ∈
          NdiTransmitter.storedValues evs1) := by
  refine ⟨(NdiTransmitter.runEvents evs1 initialTimecode).2,
    (NdiTransmitter.runEvents evs2
      (NdiTransmitter.runEvents evs1 initialTimecode).1).2,
    ?_, NdiTransmitter.runEvents_fst_mem evs1 initialTimecode⟩
  rw [NdiTransmitter.runEvents_append evs1
    (NdiTransmitter.TCEvent.get :: evs2) initialTimecode]
  simp [NdiTransmitter.runEvents]

/-- Claim C7: both timecode handlers accept a message exactly when it
carries at least one argument: with no arguments the stored timecode is
unchanged; with one or more arguments it is unconditionally replaced by
the string-formatting of the taken field(s) - str(args[0]) in
ndi_transmitter.py, str(args[0:5]) in local_saver.py - with no
validation of count or content. -/
theorem timecode_handler_accepts_iff (address : String) (args : List OSCArg)
    (st : String) :
    (args = [] →
      NdiTransmitter.timecode_handler address args st = st ∧
      LocalSaver.timecode_handler address args st = st) ∧
    (args ≠ [] →
      NdiTransmitter.timecode_handler address args st = pyStr (args.headD (.int 0)) ∧
      LocalSaver.timecode_handler address args st = pyStrTuple (args.take 5)) := by
  constructor
  · rintro rfl
    exact ⟨rfl, rfl⟩
  · intro hne
    match args, hne with
    | a :: rest, _ => exact ⟨rfl, rfl⟩

/-- Witness for C7: both hypotheses discharged at concrete messages. -/
theorem timecode_handler_accepts_iff_witness :
    (NdiTransmitter.timecode_handler "/timecode" [] "kept" = "kept" ∧
      LocalSaver.timecode_handler "/asil/clock" [] "kept" = "kept") ∧
    (NdiTransmitter.timecode_handler "/timecode" [OSCArg.str "01:02:03:04:0"]
        initialTimecode =
      pyStr (([OSCArg.str "01:02:03:04:0"]).headD (.int 0)) ∧
      LocalSaver.timecode_handler "/asil/clock" [OSCArg.str "01:02:03:04:0"]
        initialTimecode =
      pyStrTuple (([OSCArg.str "01:02:03:04:0"]).take 5)) := by
  refine ⟨⟨((timecode_handler_accepts_iff "/timecode" [] "kept").1 rfl).1,
    ((timecode_handler_accepts_iff "/asil/clock" [] "kept").1 rfl).2⟩,
    ((timecode_handler_accepts_iff "/timecode" [OSCArg.str "01:02:03:04:0"]
      initialTimecode).2 (by simp)).1,
    ((timecode_handler_accepts_iff "/asil/clock" [OSCArg.str "01:02:03:04:0"]
      initialTimecode).2 (by simp)).2⟩

/-- Claim C9: get_latest_frame returns None while no frame has been
stored; once the register holds buffer b, it returns a freshly allocated
buffer holding a copy of the register contents, and mutating that
returned buffer never changes any pre-existing buffer - in particular
neither the register buffer nor any buffer returned by an earlier call. -/
theorem get_latest_frame_independent_copy (st : NDIReceiver.RecvState)
    (hp : FrameHeap) :
    (st.latest_frame = none →
      NDIReceiver.get_latest_frame st hp = (none, hp)) ∧
    (∀ b, st.latest_frame = some b →
      (NDIReceiver.get_latest_frame st hp).1 = some hp.bufs.length ∧
      (NDIReceiver.get_latest_frame st hp).2.readBuf hp.bufs.length = hp.readBuf b ∧
      (∀ (f : Frame) (j : Nat), j < hp.bufs.length →
        (((NDIReceiver.get_latest_frame st hp).2.writeBuf hp.bufs.length f).readBuf j =
          hp.readBuf j))) := by
  constructor
  · intro hnone
    simp [NDIReceiver.get_latest_frame, hnone]
  · intro b hsome
    have hget : NDIReceiver.get_latest_frame st hp =
        (some hp.bufs.length, ⟨hp.bufs ++ [hp.readBuf b]⟩) := by
      simp [NDIReceiver.get_latest_frame, hsome]
    rw [hget]
    refine ⟨rfl, ?_, ?_⟩
    · simp only [FrameHeap.readBuf]
      rw [List.getD_eq_getElem?_getD, List.getElem?_concat_length]
      rfl
    · intro f j hj
      simp only [FrameHeap.writeBuf, FrameHeap.readBuf]
      rw [List.getD_eq_getElem?_getD, List.getD_eq_getElem?_getD]
      rw [List.getElem?_set_ne (by omega)]
      rw [List.getElem?_append, if_pos hj, List.getD_eq_getElem?_getD]

/-- Witness for C9: both branches at a one-buffer heap; the copy goes to
buffer 1, and overwriting buffer 1 leaves the register buffer 0 intact. -/
theorem get_latest_frame_independent_copy_witness :
    (NDIReceiver.get_latest_frame ⟨none⟩ ⟨[demoFrame]⟩ = (none, ⟨[demoFrame]⟩)) ∧
    ((NDIReceiver.get_latest_frame ⟨some 0⟩ ⟨[demoFrame]⟩).1 = some 1 ∧
      ((NDIReceiver.get_latest_frame ⟨some 0⟩ ⟨[demoFrame]⟩).2.writeBuf 1 []).readBuf 0 =
        demoFrame) := by
  refine ⟨(get_latest_frame_independent_copy ⟨none⟩ ⟨[demoFrame]⟩).1 rfl, ?_, ?_⟩
  · exact ((get_latest_frame_independent_copy ⟨some 0⟩ ⟨[demoFrame]⟩).2 0 rfl).1
  · exact ((get_latest_frame_independent_copy ⟨some 0⟩ ⟨[demoFrame]⟩).2 0 rfl).2.2
      [] 0 (by decide)

theorem bool_not_isEmpty_iff {α : Type} (l : List α) :
    ((!l.isEmpty) = true) ↔ ∃ x, x ∈ l := by
  cases l <;> simp

namespace NDIReceiver

theorem pollLoop_contains (f : Nat → List String) (name : String) :
    ∀ (fuel i : Nat) (acc : List String), 0 < fuel →
      ((pollLoop f name i fuel acc).contains name = true ↔
        ∃ k, k < fuel ∧ (f (i + k)).contains name = true)
  | 0, _, _, h => absurd h (by omega)
  | fuel + 1, i, acc, _ => by
    have hstep : pollLoop f name i (fuel + 1) acc =
        if (f i).contains name = true then f i
        else pollLoop f name (i + 1) fuel (f i) := rfl
    rw [hstep]
    by_cases hc : (f i).contains name = true
    · rw [if_pos hc]
      exact ⟨fun _ => ⟨0, by omega, by simpa using hc⟩, fun _ => hc⟩
    · rw [if_neg hc]
      cases fuel with
      | zero =>
        have hzero : pollLoop f name (i + 1) 0 (f i) = f i := rfl
        rw [hzero]
        constructor
        · intro h; exact absurd h hc
        · rintro ⟨k, hk, hfk⟩
          have hk0 : k = 0 := by omega
          subst hk0
          rw [Nat.add_zero] at hfk
          exact absurd hfk hc
      | succ m =>
        rw [pollLoop_contains f name (m + 1) (i + 1) (f i) (by omega)]
        constructor
        · rintro ⟨k, hk, hfk⟩
          exact ⟨k + 1, by omega, by rw [show i + (k + 1) = i + 1 + k by omega]; exact hfk⟩
        · rintro ⟨k, hk, hfk⟩
          match k, hk, hfk with
          | 0, _, hfk =>
            rw [Nat.add_zero] at hfk
            exact absurd hfk hc
          | k + 1, hk, hfk =>
            exact ⟨k, by omega, by rw [show i + 1 + k = i + (k + 1) by omega]; exact hfk⟩

end NDIReceiver

/-- Claim C6: connect_sources returns True exactly when at least one of
the requested sources connected; the registry holds exactly the names
whose connect attempt succeeded (each under its name, failures omitted
without aborting startup); and a connect attempt succeeds exactly when
the library set-up calls succeed and the source name appears in one of
the 20 polls of the source list. -/
theorem connect_sources_spec (env : NDIReceiver.NDIEnv)
    (source_names : List String) :
    ((MultiCameraRecorder.connect_sources env source_names).2 = true ↔
      ∃ n, n ∈ source_names ∧ NDIReceiver.start env n = true) ∧
    (∀ n, n ∈ (MultiCameraRecorder.connect_sources env source_names).1 ↔
      (n ∈ source_names ∧ NDIReceiver.start env n = true)) ∧
    (∀ n, NDIReceiver.connect env n = true ↔
      (env.initOk = true ∧ env.findCreateOk = true ∧
        (∃ k, k < 20 ∧ (env.sourcesAt k).contains n = true) ∧
        env.recvCreateOk = true)) := by
  refine ⟨?_, ?_, ?_⟩
  · rw [show (MultiCameraRecorder.connect_sources env source_names).2 =
      !(source_names.filter (fun name => NDIReceiver.start env name)).isEmpty from rfl]
    rw [bool_not_isEmpty_iff]
    constructor
    · rintro ⟨x, hx⟩
      rw [List.mem_filter] at hx
      exact ⟨x, hx⟩
    · rintro ⟨n, hn, hs⟩
      exact ⟨n, List.mem_filter.mpr ⟨hn, hs⟩⟩
  · intro n
    rw [show (MultiCameraRecorder.connect_sources env source_names).1 =
      source_names.filter (fun name => NDIReceiver.start env name) from rfl]
    exact List.mem_filter
  · intro n
    have hpoll := NDIReceiver.pollLoop_contains env.sourcesAt n 20 0 [] (by omega)
    simp only [Nat.zero_add] at hpoll
    rw [← hpoll]
    rcases env with ⟨i, fc, rc, sAt⟩
    simp only [NDIReceiver.connect]
    cases i <;> cases fc <;> cases rc <;>
      cases hC : (NDIReceiver.pollLoop sAt n 0 20 []).contains n <;>
      simp_all

/-- Witness for claim C6 helper use at a concrete environment: one of two
requested sources is found at the third poll, the other never appears;
connect_sources succeeds and registers exactly the found one. -/
theorem connect_sources_spec_witness :
    (MultiCameraRecorder.connect_sources
        ⟨true, true, true, fun k => if k == 2 then ["CAM_A"] else []⟩
        ["CAM_A", "CAM_B"]).2 = true ∧
      (MultiCameraRecorder.connect_sources
        ⟨true, true, true, fun k => if k == 2 then ["CAM_A"] else []⟩
        ["CAM_A", "CAM_B"]).1 = ["CAM_A"] := by
  refine ⟨?_, by decide⟩
  exact (connect_sources_spec
      ⟨true, true, true, fun k => if k == 2 then ["CAM_A"] else []⟩
      ["CAM_A", "CAM_B"]).1.mpr ⟨"CAM_A", by decide, by decide⟩
